import Mathlib

/-!
Verification of the virtual-sample composition pipeline of
`get_submission_xmls/create_virtual_sample.py`.

The Python source is shallowly embedded: dictionaries become association
lists (insertion-ordered, distinct keys, as Python dicts are), optional
strings become `Option String`, Python string truthiness (`if s:`) becomes
an emptiness test, raised exceptions become `Except.error`, and the regex
searches of `extract_sample_code_from_response` become an explicit scanning
matcher over character lists. External collaborators (network fetches, file
IO, the transport) are out of scope: functions receive their already-fetched
inputs as parameters, and a pipeline function returning `Except.error`
models the run aborting before anything downstream (composition, transport)
happens, exactly as a raised exception does in `main`.
-/

/-- Association-list lookup, modelling Python dict access / `in` tests.
Keys are unique in every list built from a Python dict, so first-match
lookup coincides with dict lookup. -/
def alookup {β : Type} : List (String × β) → String → Option β
  | [], _ => none
  | (k, v) :: rest, key => if k = key then some v else alookup rest key

/-- Association-list update, modelling Python `d[k] = v`: overwrite in
place when the key exists (keeping its position), else append. -/
def dictUpd {β : Type} : List (String × β) → String → β → List (String × β)
  | [], k, v => [(k, v)]
  | (k', v') :: rest, k, v =>
      if k' = k then (k, v) :: rest else (k', v') :: dictUpd rest k v

/-- A sample's attribute dictionary as produced by `parse_sample_attributes`:
tag ↦ (value, units).  `units` is `none` when the sample had no UNITS
element (ElementTree yields `None` there). -/
abbrev AttrSet := List (String × String × Option String)

/-- `DEFAULT_CHECKLIST` from the top of the script. -/
def DEFAULT_CHECKLIST : String := "ERC000011"

/-- Lines 287-306 of `main`: the checklist-inconsistency check followed by
the checklist selection.  `checklist` is the `--checklist` override, `""`
standing for the absent (falsy `None`) value; `checklist_set` is the set of
distinct truthy `ENA-CHECKLIST` values collected from the sources (a list
without duplicates models the Python `set`; only its size and sole element
matter).  Returns the selected checklist and the warnings list, or the
`ValueError` raised at line 289. -/
def select_checklist (checklist : String) (checklist_set : List String) :
    Except String (String × List String) :=
  if checklist_set ≠ [] ∧ checklist_set.length > 1 ∧ checklist = "" then
    Except.error "Inconsistent checklists found in input samples and no checklist provided."
  else if checklist ≠ "" then
    Except.ok (checklist, [])
  else
    match checklist_set with
    | [c] => Except.ok (c, [])
    | _ =>
        Except.ok (DEFAULT_CHECKLIST,
          ["Using default checklist due to inconsistencies or missing checklist in input samples."])

/-- Python `", ".join(codes)`. -/
def joinComma : List String → String
  | [] => ""
  | [x] => x
  | x :: y :: rest => x ++ ", " ++ joinComma (y :: rest)

/-- Python `"_".join(codes)`. -/
def joinUnderscore : List String → String
  | [] => ""
  | [x] => x
  | x :: y :: rest => x ++ "_" ++ joinUnderscore (y :: rest)

/-- The TITLE text built at lines 34-36 of `create_virtual_sample`. -/
def description_text (sample_codes : List String) : String :=
  "This sample is a virtual sample of assembled raw reads from multiple physical samples of genome and is composed of physical samples "
    ++ joinComma sample_codes ++ "."

/-- Python truthiness of the `units` component at line 64 (`if units:`):
a UNITS element is emitted only for a non-`None`, non-empty units string. -/
def emitUnits : Option String → Option String
  | some u => if u = "" then none else some u
  | none => none

/-- Python `mandatory_field not in common_attributes` (dict key membership),
negated. -/
def memKeys (l : AttrSet) (k : String) : Bool :=
  (alookup l k).isSome

/-- One SAMPLE_ATTRIBUTE element: TAG, VALUE, and an optional UNITS. -/
structure SampleAttr where
  tag : String
  value : String
  units : Option String
deriving DecidableEq, Repr

/-- The composed SAMPLE element returned by `create_virtual_sample`:
root attributes (alias, optional center_name), TITLE, SAMPLE_NAME
(taxon id and scientific name, `Option` because `main` may pass `None`),
and the SAMPLE_ATTRIBUTES list in emission order. -/
structure SampleRecord where
  alias_name : String
  center_name : Option String
  title : String
  taxon_id : Option String
  scientific_name : Option String
  attributes : List SampleAttr
deriving DecidableEq, Repr

/-- `create_virtual_sample` (lines 27-77).  The three attribute-building
phases mirror the source: the ENA-CHECKLIST attribute first (when the
checklist is truthy), then one attribute per common attribute skipping the
reserved ENA-CHECKLIST tag and carrying truthy units, then a
"missing: synthetic construct" placeholder for each mandatory field whose
name is not a key of the common attributes.  The loops are written as left
folds appending to the accumulated list, as the Python `for` loops do. -/
def create_virtual_sample (common_attributes : AttrSet) (sample_codes : List String)
    (common_taxon_id common_scientific_name : Option String)
    (alias_name center checklist : String) (mandatory_fields : List String) : SampleRecord :=
  let attrs0 : List SampleAttr :=
    if checklist ≠ "" then [⟨"ENA-CHECKLIST", checklist, none⟩] else []
  let attrs1 := common_attributes.foldl
    (fun acc e =>
      if e.1 = "ENA-CHECKLIST" then acc
      else acc ++ [⟨e.1, e.2.1, emitUnits e.2.2⟩]) attrs0
  let attrs2 := mandatory_fields.foldl
    (fun acc f =>
      if memKeys common_attributes f then acc
      else acc ++ [⟨f, "missing: synthetic construct", none⟩]) attrs1
  { alias_name := alias_name
    center_name := if center ≠ "" then some center else none
    title := description_text sample_codes
    taxon_id := common_taxon_id
    scientific_name := common_scientific_name
    attributes := attrs2 }

/-! ### Accession extraction (`extract_sample_code_from_response`, lines 152-167)

The two `re.search` calls are embedded as a scanner over character lists.
Each pattern is a literal prefix (ending in the mandatory `ERS`), then one
or more digits (`\d+`), then a closing quote.  Because a digit can never
match the quote, the regex engine's backtracking is immaterial: a match at
a position exists iff the literal matches there, a non-empty maximal digit
run follows, and the character after that run is `"`. -/

/-- The literal part of `<SAMPLE accession="(ERS\d+)"`. -/
def succLit : List Char := "<SAMPLE accession=\"ERS".data

/-- The literal part of `accession: "(ERS\d+)"`. -/
def errLit : List Char := "accession: \"ERS".data

/-- Try to match `lit ++ digits+ ++ '"'` at the head of `l`; on success
return the digit run (the part of the capture group after `ERS`). -/
def tryAt (lit : List Char) (l : List Char) : Option (List Char) :=
  if lit.isPrefixOf l then
    let rest := l.drop lit.length
    let ds := rest.takeWhile Char.isDigit
    if ds ≠ [] ∧ (rest.dropWhile Char.isDigit).head? = some '\"' then some ds
    else none
  else none

/-- `re.search`: try the pattern at every position, left to right. -/
def scanFor (lit : List Char) : List Char → Option (List Char)
  | [] => tryAt lit []
  | c :: rest =>
      match tryAt lit (c :: rest) with
      | some ds => some ds
      | none => scanFor lit rest

/-- `extract_sample_code_from_response`: first the success-shaped pattern,
then the error-shaped pattern, else `None`.  The returned group is
`ERS` ++ digits. -/
def extract_sample_code_from_response (response : String) : Option String :=
  match scanFor succLit response.data with
  | some ds => some (String.mk ("ERS".data ++ ds))
  | none =>
      match scanFor errLit response.data with
      | some ds => some (String.mk ("ERS".data ++ ds))
      | none => none

/-- `a` is an accession occurring in `s` inside the shape `lit ++ a-digits
++ '"'`: the declarative counterpart of a successful `re.search`. -/
def shapedIn (lit : List Char) (s : String) (a : String) : Prop :=
  ∃ pre ds post, s.data = pre ++ lit ++ ds ++ ('\"' :: post) ∧
    ds ≠ [] ∧ ds.all Char.isDigit = true ∧ a.data = "ERS".data ++ ds

/-- `a` occurs in `s` in the success response shape `<SAMPLE accession="…"`. -/
def successShaped (s a : String) : Prop := shapedIn succLit s a

/-- `a` occurs in `s` in the error response shape `accession: "…"`. -/
def errorShaped (s a : String) : Prop := shapedIn errLit s a

/-! ### Release phase (lines 86-93 and 223-244 of `main`) -/

/-- One ACTION element of the release SUBMISSION document. -/
inductive ReleaseAction where
  | modify : ReleaseAction
  | release : String → ReleaseAction
deriving DecidableEq, Repr

/-- `create_release_xml`: a SUBMISSION whose ACTIONS are a MODIFY and a
RELEASE targeting the given sample code. -/
def create_release_xml (sample_code : String) : List ReleaseAction :=
  [ReleaseAction.modify, ReleaseAction.release sample_code]

/-- The release branch of `main` (lines 223-244) up to the transport call:
read the persisted receipt (passed in), extract the sample code, raise
`ValueError` when it is falsy (line 231-232), else build the release
document that `submit_to_ebi` then transports.  `Except.error` models the
run aborting before any release request is transported. -/
def release_main (receipt : String) : Except String (List ReleaseAction) :=
  match extract_sample_code_from_response receipt with
  | none => Except.error "No sample code found in submission response."
  | some code =>
      if code = "" then Except.error "No sample code found in submission response."
      else Except.ok (create_release_xml code)

/-! ### Submission phase of `main` (lines 246-341) -/

/-- One fetched source sample, as parsed from its downloaded XML: the
`alias` root attribute, TAXON_ID and SCIENTIFIC_NAME texts, and the parsed
SAMPLE_ATTRIBUTES dictionary. -/
structure SampleXml where
  alias_name : String
  taxon_id : String
  scientific_name : String
  attributes : AttrSet
deriving DecidableEq, Repr

/-- The accumulator state of the per-sample loop at lines 248-285. -/
structure ProcState where
  sample_aliases : List String
  all_attributes : List AttrSet
  common_taxon_id : Option String
  common_scientific_name : Option String
  checklist_set : List String
deriving Repr

/-- Lines 268-276, one taxonomy field: adopt the first sample's value,
compare later samples against it, raising `ValueError` on mismatch with
the message format of the source. -/
def check_common (kind : String) (current : Option String) (observed code : String) :
    Except String String :=
  match current with
  | none => Except.ok observed
  | some t =>
      if t = observed then Except.ok t
      else Except.error (kind ++ " mismatch for sample " ++ code ++ ": " ++ observed ++ " vs " ++ t)

/-- Lines 283-285: `checklist_set.add(value)` for a truthy ENA-CHECKLIST
value.  The Python `set` is modelled as a duplicate-free list (only its
cardinality and sole element are ever consumed). -/
def collect_checklist (cs : List String) (attrs : AttrSet) : List String :=
  match alookup attrs "ENA-CHECKLIST" with
  | some p => if p.1 ≠ "" ∧ p.1 ∉ cs then cs ++ [p.1] else cs
  | none => cs

/-- One iteration of the loop at lines 255-285 over `(code, sample)`. -/
def process_one (st : ProcState) (item : String × SampleXml) : Except String ProcState :=
  match check_common "Taxon ID" st.common_taxon_id item.2.taxon_id item.1 with
  | Except.error e => Except.error e
  | Except.ok t =>
      match check_common "Scientific name" st.common_scientific_name
          item.2.scientific_name item.1 with
      | Except.error e => Except.error e
      | Except.ok n =>
          Except.ok
            { sample_aliases := st.sample_aliases ++ [item.2.alias_name]
              all_attributes := st.all_attributes ++ [item.2.attributes]
              common_taxon_id := some t
              common_scientific_name := some n
              checklist_set := collect_checklist st.checklist_set item.2.attributes }

/-- Run the loop over the remaining samples. -/
def process_from (st : ProcState) : List (String × SampleXml) → Except String ProcState
  | [] => Except.ok st
  | x :: rest =>
      match process_one st x with
      | Except.error e => Except.error e
      | Except.ok st' => process_from st' rest

/-- The whole fetch-and-check loop of the submission branch, starting from
the empty accumulators of lines 248-253. -/
def process_samples (samples : List (String × SampleXml)) : Except String ProcState :=
  process_from ⟨[], [], none, none, []⟩ samples

/-- Lines 291-297: the reconciled common attributes — the first sample's
entries whose tag is present in every attribute set with an identical
(value, units) pair. -/
def common_attrs : List AttrSet → AttrSet
  | [] => []
  | first :: rest =>
      first.filter (fun e => (first :: rest).all (fun a => decide (alookup a e.1 = some e.2)))

/-- The error message raised for the first source sample `x` disagreeing
with the first sample's taxonomy `(t, n)`; the taxon id is checked before
the scientific name, as at lines 268-276. -/
def mismatch_msg (t n : String) (x : String × SampleXml) : String :=
  if x.2.taxon_id ≠ t then
    "Taxon ID mismatch for sample " ++ x.1 ++ ": " ++ x.2.taxon_id ++ " vs " ++ t
  else
    "Scientific name mismatch for sample " ++ x.1 ++ ": " ++ x.2.scientific_name ++ " vs " ++ n

/-- The submission branch of `main` (lines 246-341) up to the transport
call: fetch/check loop, checklist-inconsistency check and selection,
attribute reconciliation, checklist resolution (the network fetch of
`mandatory_fields_and_units` is passed in as `resolve_mandatory`), alias
defaulting, and composition.  The `Except.ok` value is the record handed
to the transport; `Except.error` models the run aborting first.  (In the
source the inconsistency check at line 288 precedes the pure reconciliation
at lines 291-297; both are effect-free, so the order is immaterial.) -/
def main_submit (samples : List (String × SampleXml))
    (checklist alias_name center : String)
    (resolve_mandatory : String → List String) : Except String SampleRecord :=
  match process_samples samples with
  | Except.error e => Except.error e
  | Except.ok st =>
      match select_checklist checklist st.checklist_set with
      | Except.error e => Except.error e
      | Except.ok (final_checklist, _warnings) =>
          let common := common_attrs st.all_attributes
          let mandatory := resolve_mandatory final_checklist
          let valias :=
            if alias_name ≠ "" then alias_name
            else "virtual_sample_" ++ joinUnderscore (samples.map Prod.fst)
          Except.ok (create_virtual_sample common (samples.map Prod.fst)
            st.common_taxon_id st.common_scientific_name valias center
            final_checklist mandatory)

/-! ### Checklist resolver (`mandatory_fields_and_units`, lines 169-208) -/

/-- One FIELD element of a checklist definition: its NAME text, the text of
its MANDATORY element, and its optional UNITS declaration (`some u` when a
UNITS element is present, with `u` the optional UNIT text inside it). -/
structure ChecklistField where
  name : String
  mandatory_marker : String
  units_decl : Option (Option String)
deriving DecidableEq, Repr

/-- One iteration of the FIELD loop at lines 192-206. -/
def mfu_step (acc : List String × List (String × Option String) × List String)
    (field : ChecklistField) :
    List String × List (String × Option String) × List String :=
  let units := match field.units_decl with
    | some u => dictUpd acc.2.1 field.name u
    | none => acc.2.1
  let mand := if field.mandatory_marker = "mandatory" then acc.1 ++ [field.name] else acc.1
  let recs := if field.mandatory_marker = "recommended" then acc.2.2 ++ [field.name] else acc.2.2
  (mand, units, recs)

/-- The classification loop of `mandatory_fields_and_units` over the parsed
FIELD elements (the network fetch and XML parsing are outside the
embedding; the checklist name is not consumed by the pipeline): returns
(mandatory fields, fields-with-units dict, recommended fields). -/
def mandatory_fields_and_units (fields : List ChecklistField) :
    List String × List (String × Option String) × List String :=
  fields.foldl mfu_step ([], [], [])

/-- Character-list counterpart of `joinComma`, used to reason about
recoverability of the sample codes from the description text. -/
def joinC : List (List Char) → List Char
  | [] => []
  | [x] => x
  | x :: y :: rest => x ++ ',' :: ' ' :: joinC (y :: rest)

/-- Source sample `y` carries the same taxonomy as the first sample `s0`
(pairs are `(sample_code, parsed sample)`). -/
def sample_agrees (s0 y : String × SampleXml) : Prop :=
  y.2.taxon_id = s0.2.taxon_id ∧ y.2.scientific_name = s0.2.scientific_name

/-! ## Helper lemmas -/

theorem alookup_eq_none {β : Type} {l : List (String × β)} {k : String}
    (h : k ∉ l.map Prod.fst) : alookup l k = none := by
  induction l with
  | nil => rfl
  | cons e rest ih =>
    obtain ⟨k', v⟩ := e
    simp only [List.map_cons, List.mem_cons, not_or] at h
    simp only [alookup]
    rw [if_neg fun hk => h.1 hk.symm]
    exact ih h.2

theorem alookup_mem {β : Type} {l : List (String × β)} {k : String} {v : β}
    (h : alookup l k = some v) : (k, v) ∈ l := by
  induction l with
  | nil => simp [alookup] at h
  | cons e rest ih =>
    obtain ⟨k', v'⟩ := e
    simp only [alookup] at h
    by_cases hk : k' = k
    · rw [if_pos hk] at h
      cases h
      subst hk
      exact List.mem_cons_self _ _
    · rw [if_neg hk] at h
      exact List.mem_cons_of_mem _ (ih h)

theorem alookup_of_mem {β : Type} {l : List (String × β)} {k : String} {v : β}
    (hn : (l.map Prod.fst).Nodup) (h : (k, v) ∈ l) : alookup l k = some v := by
  induction l with
  | nil => simp at h
  | cons e rest ih =>
    obtain ⟨k', v'⟩ := e
    simp only [List.map_cons, List.nodup_cons] at hn
    rcases List.mem_cons.mp h with heq | hmem
    · cases heq
      simp [alookup]
    · simp only [alookup]
      rw [if_neg ?hne]
      case hne =>
        intro hk
        exact hn.1 (hk ▸ List.mem_map_of_mem Prod.fst hmem)
      exact ih hn.2 hmem

theorem alookup_filter {β : Type} {l : List (String × β)} {k : String} {v : β}
    (hn : (l.map Prod.fst).Nodup) (f : String × β → Bool) :
    alookup (l.filter f) k = some v ↔ alookup l k = some v ∧ f (k, v) = true := by
  constructor
  · intro h
    have hmem := List.mem_filter.mp (alookup_mem h)
    exact ⟨alookup_of_mem hn hmem.1, hmem.2⟩
  · rintro ⟨h1, h2⟩
    have hn' : ((l.filter f).map Prod.fst).Nodup :=
      List.Nodup.sublist (List.Sublist.map Prod.fst (List.filter_sublist l)) hn
    exact alookup_of_mem hn' (List.mem_filter.mpr ⟨alookup_mem h1, h2⟩)

/-! ## Claims -/

/-- C1.  The checklist selection policy claims that with no override and
two-or-more distinct observed checklist values the fixed default is used
with a non-fatal warning and selection never fails; the code instead raises
`ValueError` at line 289.  This theorem evaluates the embedded policy at
the failing input (no override, observed values ERC000011 and ERC000047). -/
theorem claim_C1_checklist_policy_raises :
    select_checklist "" ["ERC000011", "ERC000047"] =
      Except.error "Inconsistent checklists found in input samples and no checklist provided." := by
  rfl

/-- C2.  Attribute reconciliation is intersective: for a non-empty list of
attribute sets (the first having unique tags, as every Python dict does), a
tag maps to pair `p` in the reconciled set iff it maps to `p` in every
input set; tags missing somewhere, or with a differing (value, unit) pair
anywhere, do not appear. -/
theorem claim_C2_reconciliation_intersective (first : AttrSet) (rest : List AttrSet)
    (t : String) (p : String × Option String) (hn : (first.map Prod.fst).Nodup) :
    alookup (common_attrs (first :: rest)) t = some p ↔
      ∀ a ∈ first :: rest, alookup a t = some p := by
  unfold common_attrs
  rw [alookup_filter hn]
  constructor
  · rintro ⟨h1, h2⟩
    simp only [List.all_eq_true, decide_eq_true_eq] at h2
    exact h2
  · intro h
    refine ⟨h first (List.mem_cons_self _ _), ?_⟩
    simp only [List.all_eq_true, decide_eq_true_eq]
    exact h

/-- Witness for C2, on the worked example of the spec: the tag `A` agreed
on by both sources is reconciled with its common pair. -/
theorem claim_C2_witness :
    alookup (common_attrs [[("A", "1", none), ("B", "x", none)],
      [("A", "1", none), ("B", "y", none)]]) "A" = some ("1", none) :=
  (claim_C2_reconciliation_intersective [("A", "1", none), ("B", "x", none)]
    [[("A", "1", none), ("B", "y", none)]] "A" ("1", none) (by decide)).mpr (by decide)

theorem foldl_skip_reserved (g : String × String × Option String → SampleAttr) :
    ∀ (l : AttrSet) (init : List SampleAttr),
      l.foldl (fun acc e => if e.1 = "ENA-CHECKLIST" then acc else acc ++ [g e]) init =
        init ++ (l.filter (fun e => !(e.1 == "ENA-CHECKLIST"))).map g := by
  intro l
  induction l with
  | nil => intro init; simp
  | cons e rest ih =>
    intro init
    simp only [List.foldl_cons, List.filter_cons]
    by_cases h : e.1 = "ENA-CHECKLIST"
    · simp [h, ih]
    · simp [h, ih]

theorem foldl_missing (common : AttrSet) :
    ∀ (l : List String) (init : List SampleAttr),
      l.foldl (fun acc f => if memKeys common f then acc
        else acc ++ [(⟨f, "missing: synthetic construct", none⟩ : SampleAttr)]) init =
      init ++ (l.filter (fun f => !(memKeys common f))).map
        (fun f => (⟨f, "missing: synthetic construct", none⟩ : SampleAttr)) := by
  intro l
  induction l with
  | nil => intro init; simp
  | cons f rest ih =>
    intro init
    simp only [List.foldl_cons, List.filter_cons]
    by_cases h : memKeys common f
    · simp [h, ih]
    · simp [h, ih]

/-- Closed form of the attribute list built by `create_virtual_sample`. -/
theorem create_virtual_sample_attributes (common : AttrSet) (codes : List String)
    (tx sn : Option String) (al ce ck : String) (mf : List String) :
    (create_virtual_sample common codes tx sn al ce ck mf).attributes =
      (if ck ≠ "" then [(⟨"ENA-CHECKLIST", ck, none⟩ : SampleAttr)] else []) ++
      (common.filter (fun e => !(e.1 == "ENA-CHECKLIST"))).map
        (fun e => (⟨e.1, e.2.1, emitUnits e.2.2⟩ : SampleAttr)) ++
      (mf.filter (fun f => !(memKeys common f))).map
        (fun f => (⟨f, "missing: synthetic construct", none⟩ : SampleAttr)) := by
  show (create_virtual_sample common codes tx sn al ce ck mf).attributes = _
  unfold create_virtual_sample
  simp only [foldl_skip_reserved, foldl_missing, List.append_assoc]

/-- C7.  In every composed record with a non-empty checklist identifier,
the first emitted attribute is the reserved `ENA-CHECKLIST` tag with the
checklist identifier as its value; the remaining attributes are the
reconciled entries in their iteration order with the reserved tag filtered
out and truthy units carried through, followed by the placeholders for the
missing mandatory fields. -/
theorem claim_C7_checklist_attribute_emitted_first (common : AttrSet) (codes : List String)
    (tx sn : Option String) (al ce ck : String) (mf : List String) (h : ck ≠ "") :
    (create_virtual_sample common codes tx sn al ce ck mf).attributes =
      (⟨"ENA-CHECKLIST", ck, none⟩ : SampleAttr) ::
        ((common.filter (fun e => !(e.1 == "ENA-CHECKLIST"))).map
          (fun e => (⟨e.1, e.2.1, emitUnits e.2.2⟩ : SampleAttr)) ++
         (mf.filter (fun f => !(memKeys common f))).map
          (fun f => (⟨f, "missing: synthetic construct", none⟩ : SampleAttr))) := by
  rw [create_virtual_sample_attributes, if_pos h]
  simp

/-- Witness for C7 at a concrete record with checklist `E2`. -/
theorem claim_C7_witness :
    (create_virtual_sample [("A", "1", some "cm"), ("ENA-CHECKLIST", "E1", none)]
        ["S1"] none none "a" "" "E2" ["A", "B"]).attributes =
      (⟨"ENA-CHECKLIST", "E2", none⟩ : SampleAttr) ::
        (([("A", "1", some "cm"), ("ENA-CHECKLIST", "E1", none)].filter
            (fun e => !(e.1 == "ENA-CHECKLIST"))).map
          (fun e => (⟨e.1, e.2.1, emitUnits e.2.2⟩ : SampleAttr)) ++
         (["A", "B"].filter
            (fun f => !(memKeys [("A", "1", some "cm"), ("ENA-CHECKLIST", "E1", none)] f))).map
          (fun f => (⟨f, "missing: synthetic construct", none⟩ : SampleAttr))) :=
  claim_C7_checklist_attribute_emitted_first
    [("A", "1", some "cm"), ("ENA-CHECKLIST", "E1", none)] ["S1"] none none "a" "" "E2"
    ["A", "B"] (by decide)

theorem filter_map_common_eq_nil {common : AttrSet} {f : String}
    (h : f ∉ common.map Prod.fst) :
    (((common.filter (fun e => !(e.1 == "ENA-CHECKLIST"))).map
        (fun e => (⟨e.1, e.2.1, emitUnits e.2.2⟩ : SampleAttr))).filter
      (fun a => a.tag == f)) = [] := by
  rw [List.filter_eq_nil_iff]
  intro a ha hbeq
  obtain ⟨e, he, rfl⟩ := List.mem_map.mp ha
  have hmem : e ∈ common := (List.mem_filter.mp he).1
  have : e.1 = f := by simpa using hbeq
  exact h (this ▸ List.mem_map_of_mem Prod.fst hmem)

theorem filter_common_part {common : AttrSet} {f : String} {v : String} {u : Option String}
    (hn : (common.map Prod.fst).Nodup) (hf : f ≠ "ENA-CHECKLIST")
    (hl : alookup common f = some (v, u)) :
    (((common.filter (fun e => !(e.1 == "ENA-CHECKLIST"))).map
        (fun e => (⟨e.1, e.2.1, emitUnits e.2.2⟩ : SampleAttr))).filter
      (fun a => a.tag == f)) = [⟨f, v, emitUnits u⟩] := by
  induction common with
  | nil => simp [alookup] at hl
  | cons e rest ih =>
    obtain ⟨k, q⟩ := e
    simp only [List.map_cons, List.nodup_cons] at hn
    simp only [alookup] at hl
    by_cases hk : k = f
    · subst hk
      rw [if_pos rfl] at hl
      cases hl
      rw [List.filter_cons]
      have h1 : (!(k == "ENA-CHECKLIST")) = true := by simp [hf]
      rw [if_pos h1, List.map_cons, List.filter_cons]
      simp only [beq_self_eq_true, if_pos]
      rw [filter_map_common_eq_nil hn.1]
    · rw [if_neg hk] at hl
      rw [List.filter_cons]
      by_cases hres : k = "ENA-CHECKLIST"
      · simp only [hres, beq_self_eq_true, Bool.not_true, Bool.false_eq_true, if_neg,
          if_false]
        exact ih hn.2 hl
      · have h1 : (!(k == "ENA-CHECKLIST")) = true := by simp [hres]
        rw [if_pos h1, List.map_cons, List.filter_cons]
        have h2 : ¬ ((k == f) = true) := by simp [hk]
        simp only [h2, if_false]
        exact ih hn.2 hl

theorem filter_sentinel_eq_nil {common : AttrSet} {mf : List String} {f : String}
    (h : memKeys common f = true) :
    (((mf.filter (fun g => !(memKeys common g))).map
        (fun g => (⟨g, "missing: synthetic construct", none⟩ : SampleAttr))).filter
      (fun a => a.tag == f)) = [] := by
  rw [List.filter_eq_nil_iff]
  intro a ha hbeq
  obtain ⟨g, hg, rfl⟩ := List.mem_map.mp ha
  have hgf : g = f := by simpa using hbeq
  have hkeep := (List.mem_filter.mp hg).2
  rw [hgf, h] at hkeep
  simp at hkeep

/-- C4 (amended).  Every mandatory field name absent from the reconciled
attributes receives the sentinel placeholder; every mandatory field name
other than the reserved `ENA-CHECKLIST` tag that is present keeps exactly
its reconciled value and (truthy) unit — the sentinel never replaces it. -/
theorem claim_C4_mandatory_field_completion (common : AttrSet) (codes : List String)
    (tx sn : Option String) (al ce ck : String) (mf : List String) :
    (∀ f ∈ mf, alookup common f = none →
      (⟨f, "missing: synthetic construct", none⟩ : SampleAttr) ∈
        (create_virtual_sample common codes tx sn al ce ck mf).attributes)
  ∧ (∀ f v u, (common.map Prod.fst).Nodup → f ∈ mf → f ≠ "ENA-CHECKLIST" →
      alookup common f = some (v, u) →
      ((create_virtual_sample common codes tx sn al ce ck mf).attributes.filter
        (fun a => a.tag == f)) = [⟨f, v, emitUnits u⟩]) := by
  constructor
  · intro f hf hnone
    rw [create_virtual_sample_attributes]
    refine List.mem_append.mpr (Or.inr ?_)
    exact List.mem_map_of_mem _ (List.mem_filter.mpr ⟨hf, by simp [memKeys, hnone]⟩)
  · intro f v u hn hf hfr hsome
    rw [create_virtual_sample_attributes, List.filter_append, List.filter_append]
    rw [filter_common_part hn hfr hsome, filter_sentinel_eq_nil (by simp [memKeys, hsome])]
    have hck : ((if ck ≠ "" then [(⟨"ENA-CHECKLIST", ck, none⟩ : SampleAttr)] else []).filter
        (fun a => a.tag == f)) = [] := by
      split
      · simp [Ne.symm hfr]
      · rfl
    rw [hck]
    rfl

/-- Counterexample to C4 as stated: with reconciled attributes containing
the reserved tag `ENA-CHECKLIST` ↦ ("ERC000011", none), a mandatory field
list containing `ENA-CHECKLIST`, and resolved checklist `ERC000047`, the
mandatory field is present among the reconciled attributes yet no attribute
of the composed record carries its reconciled value — the reserved tag is
skipped at line 56 and re-emitted with the resolved checklist instead. -/
theorem claim_C4_counterexample :
    alookup [("ENA-CHECKLIST", ("ERC000011" : String), (none : Option String))]
        "ENA-CHECKLIST" = some ("ERC000011", none)
  ∧ "ENA-CHECKLIST" ∈ ["ENA-CHECKLIST"]
  ∧ ((create_virtual_sample [("ENA-CHECKLIST", "ERC000011", none)] ["S1"] (some "9606")
        (some "Homo sapiens") "a" "" "ERC000047" ["ENA-CHECKLIST"]).attributes.all
      (fun a => !(a.value == "ERC000011"))) = true := by
  decide

/-- Witness for C4: a missing mandatory field `B` receives the sentinel and
a present one `A` keeps its reconciled value and unit. -/
theorem claim_C4_witness :
    (⟨"B", "missing: synthetic construct", none⟩ : SampleAttr) ∈
      (create_virtual_sample [("A", "1", some "cm")] ["S1"] none none "a" "" "E"
        ["A", "B"]).attributes
  ∧ ((create_virtual_sample [("A", "1", some "cm")] ["S1"] none none "a" "" "E"
        ["A", "B"]).attributes.filter (fun a => a.tag == "A")) =
      [⟨"A", "1", emitUnits (some "cm")⟩] :=
  ⟨(claim_C4_mandatory_field_completion [("A", "1", some "cm")] ["S1"] none none "a" "" "E"
      ["A", "B"]).1 "B" (by decide) (by decide),
   (claim_C4_mandatory_field_completion [("A", "1", some "cm")] ["S1"] none none "a" "" "E"
      ["A", "B"]).2 "A" "1" (some "cm") (by decide) (by decide) (by decide) (by decide)⟩

theorem comma_split : ∀ (x y r s : List Char), ',' ∉ x → ',' ∉ y →
    x ++ ',' :: r = y ++ ',' :: s → x = y ∧ r = s := by
  intro x
  induction x with
  | nil =>
    intro y r s _ hy h
    cases y with
    | nil => simpa using h
    | cons c ys =>
      simp only [List.nil_append, List.cons_append, List.cons.injEq] at h
      exact absurd (by rw [h.1]; exact List.mem_cons_self c ys) hy
  | cons a xs ih =>
    intro y r s hx hy h
    cases y with
    | nil =>
      simp only [List.nil_append, List.cons_append, List.cons.injEq] at h
      exact absurd (by rw [← h.1]; exact List.mem_cons_self a xs) hx
    | cons b ys =>
      simp only [List.cons_append, List.cons.injEq] at h
      obtain ⟨rfl, h2⟩ := h
      have hx' : ',' ∉ xs := fun hm => hx (List.mem_cons_of_mem _ hm)
      have hy' : ',' ∉ ys := fun hm => hy (List.mem_cons_of_mem _ hm)
      obtain ⟨h3, h4⟩ := ih ys r s hx' hy' h2
      exact ⟨by rw [h3], h4⟩

theorem joinC_ne_nil {y : List Char} {ys : List (List Char)} (hy : y ≠ []) :
    joinC (y :: ys) ≠ [] := by
  cases ys with
  | nil => simpa [joinC] using hy
  | cons z zs => simp [joinC]

theorem joinC_inj : ∀ (l1 l2 : List (List Char)),
    (∀ x ∈ l1, x ≠ [] ∧ ',' ∉ x) → (∀ x ∈ l2, x ≠ [] ∧ ',' ∉ x) →
    joinC l1 = joinC l2 → l1 = l2 := by
  intro l1
  induction l1 with
  | nil =>
    intro l2 _ h2 h
    cases l2 with
    | nil => rfl
    | cons y ys =>
      exfalso
      apply joinC_ne_nil (h2 y (List.mem_cons_self y ys)).1
      rw [← h]
      rfl
  | cons x xs ih =>
    intro l2 h1 h2 h
    cases l2 with
    | nil =>
      exact absurd h (joinC_ne_nil (h1 x (List.mem_cons_self x xs)).1)
    | cons y ys =>
      cases xs with
      | nil =>
        cases ys with
        | nil =>
          simp only [joinC] at h
          rw [h]
        | cons z zs =>
          exfalso
          simp only [joinC] at h
          have hc : ',' ∈ y ++ ',' :: ' ' :: joinC (z :: zs) := by simp
          exact (h1 x (List.mem_cons_self x [])).2 (by rw [h]; exact hc)
      | cons x2 xs2 =>
        cases ys with
        | nil =>
          exfalso
          simp only [joinC] at h
          have hc : ',' ∈ x ++ ',' :: ' ' :: joinC (x2 :: xs2) := by simp
          exact (h2 y (List.mem_cons_self y [])).2 (by rw [← h]; exact hc)
        | cons y2 ys2 =>
          simp only [joinC] at h
          obtain ⟨hxy, htail⟩ := comma_split x y (' ' :: joinC (x2 :: xs2))
            (' ' :: joinC (y2 :: ys2)) (h1 x (List.mem_cons_self _ _)).2
            (h2 y (List.mem_cons_self _ _)).2 h
          have htail' : joinC (x2 :: xs2) = joinC (y2 :: ys2) := by
            injection htail
          have hrest := ih (y2 :: ys2) (fun z hz => h1 z (List.mem_cons_of_mem _ hz))
            (fun z hz => h2 z (List.mem_cons_of_mem _ hz)) htail'
          rw [hxy, hrest]

theorem joinComma_data : ∀ codes : List String,
    (joinComma codes).data = joinC (codes.map String.data) := by
  intro codes
  induction codes with
  | nil => rfl
  | cons x rest ih =>
    cases rest with
    | nil => rfl
    | cons y t =>
      simp only [joinComma, List.map_cons, joinC, String.data_append, ih, List.map_cons]
      simp [List.append_assoc]

/-- C6.  The composed record's description (its TITLE text) enumerates
exactly the source sample identifiers, in their original input order, and
no others: the title is the fixed sentence around the comma-joined code
list, and for identifiers that are non-empty and comma-free (as archive
accessions are) the description determines the code list uniquely, so the
contributing samples are recoverable from the record alone. -/
theorem claim_C6_provenance_description :
    (∀ (common : AttrSet) (codes : List String) (tx sn : Option String)
       (al ce ck : String) (mf : List String),
       (create_virtual_sample common codes tx sn al ce ck mf).title = description_text codes)
  ∧ (∀ c1 c2 : List String, (∀ c ∈ c1, c ≠ "" ∧ ',' ∉ c.data) →
      (∀ c ∈ c2, c ≠ "" ∧ ',' ∉ c.data) →
      description_text c1 = description_text c2 → c1 = c2) := by
  constructor
  · intro common codes tx sn al ce ck mf
    rfl
  · intro c1 c2 h1 h2 h
    have hd := congrArg String.data h
    simp only [description_text, String.data_append, List.append_assoc] at hd
    have hd2 := List.append_cancel_left hd
    have hj : (joinComma c1).data = (joinComma c2).data := List.append_cancel_right hd2
    rw [joinComma_data, joinComma_data] at hj
    have hv1 : ∀ x ∈ c1.map String.data, x ≠ [] ∧ ',' ∉ x := by
      intro x hx
      obtain ⟨c, hc, rfl⟩ := List.mem_map.mp hx
      exact ⟨fun hnil => (h1 c hc).1 (String.ext (by simpa using hnil)), (h1 c hc).2⟩
    have hv2 : ∀ x ∈ c2.map String.data, x ≠ [] ∧ ',' ∉ x := by
      intro x hx
      obtain ⟨c, hc, rfl⟩ := List.mem_map.mp hx
      exact ⟨fun hnil => (h2 c hc).1 (String.ext (by simpa using hnil)), (h2 c hc).2⟩
    have hmap := joinC_inj (c1.map String.data) (c2.map String.data) hv1 hv2 hj
    exact List.map_injective_iff.mpr (fun a b hab => String.ext hab) hmap

/-- Witness for C6 at the concrete code list `[SAMEA1, SAMEA2]`. -/
theorem claim_C6_witness :
    (create_virtual_sample [] ["SAMEA1", "SAMEA2"] none none "a" "" "E" []).title =
      description_text ["SAMEA1", "SAMEA2"]
  ∧ (["SAMEA1", "SAMEA2"] : List String) = ["SAMEA1", "SAMEA2"] :=
  ⟨claim_C6_provenance_description.1 [] ["SAMEA1", "SAMEA2"] none none "a" "" "E" [],
   claim_C6_provenance_description.2 ["SAMEA1", "SAMEA2"] ["SAMEA1", "SAMEA2"]
     (by decide) (by decide) rfl⟩

theorem takeWhile_digits : ∀ (ds post : List Char), ds.all Char.isDigit = true →
    (ds ++ '\"' :: post).takeWhile Char.isDigit = ds ∧
    (ds ++ '\"' :: post).dropWhile Char.isDigit = '\"' :: post := by
  intro ds
  induction ds with
  | nil =>
    intro post _
    have hq : Char.isDigit '\"' = false := by decide
    constructor
    · simp [List.takeWhile_cons, hq]
    · simp [List.dropWhile_cons, hq]
  | cons d rest ih =>
    intro post hall
    simp only [List.all_cons, Bool.and_eq_true] at hall
    simp only [List.cons_append, List.takeWhile_cons, List.dropWhile_cons, hall.1, if_true]
    exact ⟨by rw [(ih post hall.2).1], by rw [(ih post hall.2).2]⟩

theorem tryAt_some {lit l ds : List Char} (h : tryAt lit l = some ds) :
    ∃ post, l = lit ++ ds ++ '\"' :: post ∧ ds ≠ [] ∧ ds.all Char.isDigit = true := by
  simp only [tryAt] at h
  split at h
  case isFalse => simp at h
  case isTrue hp =>
    split at h
    case isFalse => simp at h
    case isTrue hc =>
      obtain ⟨hne, hq⟩ := hc
      cases h
      obtain ⟨t, ht⟩ := List.isPrefixOf_iff_prefix.mp hp
      have hdrop : l.drop lit.length = t := by rw [← ht]; exact List.drop_left lit t
      rw [hdrop] at hne hq ⊢
      cases hdw : t.dropWhile Char.isDigit with
      | nil => rw [hdw] at hq; simp at hq
      | cons c post =>
        rw [hdw] at hq
        have hcq : c = '\"' := by simpa using hq
        subst hcq
        refine ⟨post, ?_, hne, ?_⟩
        · have ht2 : t = List.takeWhile Char.isDigit t ++ '\"' :: post := by
            conv_lhs => rw [← List.takeWhile_append_dropWhile Char.isDigit t]
            rw [hdw]
          rw [List.append_assoc, ← ht2, ← ht]
        · exact List.all_eq_true.mpr fun a ha => List.mem_takeWhile_imp ha

theorem tryAt_of_shape (lit ds post : List Char) (hne : ds ≠ [])
    (hds : ds.all Char.isDigit = true) :
    tryAt lit (lit ++ ds ++ '\"' :: post) = some ds := by
  have hpre : lit.isPrefixOf (lit ++ ds ++ '\"' :: post) = true := by
    rw [List.append_assoc]
    exact List.isPrefixOf_iff_prefix.mpr (List.prefix_append lit _)
  have hdrop : (lit ++ ds ++ '\"' :: post).drop lit.length = ds ++ '\"' :: post := by
    rw [List.append_assoc]
    exact List.drop_left lit _
  obtain ⟨htw, hdw⟩ := takeWhile_digits ds post hds
  simp only [tryAt, hpre, if_true, hdrop, htw, hdw]
  simp [hne]

theorem scanFor_of_tryAt {lit l ds : List Char} (h : tryAt lit l = some ds) :
    scanFor lit l = some ds := by
  cases l with
  | nil => simpa [scanFor] using h
  | cons c rest => simp [scanFor, h]

theorem scanFor_some {lit : List Char} : ∀ {l ds : List Char}, scanFor lit l = some ds →
    ∃ pre post, l = pre ++ lit ++ ds ++ '\"' :: post ∧ ds ≠ [] ∧
      ds.all Char.isDigit = true := by
  intro l
  induction l with
  | nil =>
    intro ds h
    rw [scanFor] at h
    obtain ⟨post, hl, hne, hdig⟩ := tryAt_some h
    exact ⟨[], post, by rw [List.nil_append]; exact hl, hne, hdig⟩
  | cons c rest ih =>
    intro ds h
    rw [scanFor] at h
    cases htry : tryAt lit (c :: rest) with
    | some ds' =>
      rw [htry] at h
      cases h
      obtain ⟨post, hl, hne, hdig⟩ := tryAt_some htry
      exact ⟨[], post, by rw [List.nil_append]; exact hl, hne, hdig⟩
    | none =>
      rw [htry] at h
      obtain ⟨pre, post, hl, hne, hdig⟩ := ih h
      exact ⟨c :: pre, post, by simp [hl], hne, hdig⟩

theorem scanFor_isSome_of_shape (lit : List Char) :
    ∀ (pre ds post : List Char), ds ≠ [] → ds.all Char.isDigit = true →
      (scanFor lit (pre ++ lit ++ ds ++ '\"' :: post)).isSome = true := by
  intro pre
  induction pre with
  | nil =>
    intro ds post h1 h2
    have ht := tryAt_of_shape lit ds post h1 h2
    rw [List.nil_append, scanFor_of_tryAt ht]
    rfl
  | cons c pre' ih =>
    intro ds post h1 h2
    have hshape : (c :: pre') ++ lit ++ ds ++ '\"' :: post =
        c :: (pre' ++ lit ++ ds ++ '\"' :: post) := by simp
    rw [hshape, scanFor]
    cases htry : tryAt lit (c :: (pre' ++ lit ++ ds ++ '\"' :: post)) with
    | some ds' => rfl
    | none => exact ih ds post h1 h2

theorem extract_some_shaped {s a : String}
    (h : extract_sample_code_from_response s = some a) :
    successShaped s a ∨ errorShaped s a := by
  unfold extract_sample_code_from_response at h
  cases h1 : scanFor succLit s.data with
  | some ds =>
    rw [h1] at h
    cases h
    obtain ⟨pre, post, hl, hne, hdig⟩ := scanFor_some h1
    exact Or.inl ⟨pre, ds, post, hl, hne, hdig, rfl⟩
  | none =>
    rw [h1] at h
    cases h2 : scanFor errLit s.data with
    | some ds =>
      rw [h2] at h
      cases h
      obtain ⟨pre, post, hl, hne, hdig⟩ := scanFor_some h2
      exact Or.inr ⟨pre, ds, post, hl, hne, hdig, rfl⟩
    | none =>
      rw [h2] at h
      cases h

theorem extract_ne_empty {s a : String}
    (h : extract_sample_code_from_response s = some a) : a ≠ "" := by
  intro he
  have hers : ("ERS".data : List Char) = ['E', 'R', 'S'] := rfl
  rcases extract_some_shaped h with hs | hs <;>
  · obtain ⟨pre, ds, post, _, hne, _, hdata⟩ := hs
    rw [he, hers] at hdata
    simp at hdata

/-- C5.  Accession extraction tries the success-shaped pattern before the
error-shaped one and returns the first match: whenever the response
contains a success-shaped accession, the extracted accession is
success-shaped (even if an error-shaped accession is also present); with
only an error-shaped accession present, an error-shaped accession is
extracted; and when neither shape occurs the extraction returns `none`
(it is a total function — absence never raises). -/
theorem claim_C5_extraction_precedence (s : String) :
    ((∃ a, successShaped s a) →
      ∃ a, extract_sample_code_from_response s = some a ∧ successShaped s a)
  ∧ ((∀ a, ¬ successShaped s a) → (∃ b, errorShaped s b) →
      ∃ b, extract_sample_code_from_response s = some b ∧ errorShaped s b)
  ∧ ((∀ a, ¬ successShaped s a) → (∀ b, ¬ errorShaped s b) →
      extract_sample_code_from_response s = none) := by
  refine ⟨?_, ?_, ?_⟩
  · rintro ⟨a, pre, ds, post, hl, hne, hdig, _⟩
    have hs : (scanFor succLit s.data).isSome = true := by
      rw [hl]
      exact scanFor_isSome_of_shape succLit pre ds post hne hdig
    obtain ⟨ds', hds'⟩ := Option.isSome_iff_exists.mp hs
    obtain ⟨pre', post', hl', hne', hdig'⟩ := scanFor_some hds'
    refine ⟨String.mk ("ERS".data ++ ds'), ?_, pre', ds', post', hl', hne', hdig', rfl⟩
    unfold extract_sample_code_from_response
    rw [hds']
  · rintro hns ⟨b, pre, ds, post, hl, hne, hdig, _⟩
    have hsucc : scanFor succLit s.data = none := by
      cases h1 : scanFor succLit s.data with
      | some ds0 =>
        obtain ⟨pre0, post0, hl0, hne0, hdig0⟩ := scanFor_some h1
        exact absurd ⟨pre0, ds0, post0, hl0, hne0, hdig0, rfl⟩
          (hns (String.mk ("ERS".data ++ ds0)))
      | none => rfl
    have he : (scanFor errLit s.data).isSome = true := by
      rw [hl]
      exact scanFor_isSome_of_shape errLit pre ds post hne hdig
    obtain ⟨ds', hds'⟩ := Option.isSome_iff_exists.mp he
    obtain ⟨pre', post', hl', hne', hdig'⟩ := scanFor_some hds'
    refine ⟨String.mk ("ERS".data ++ ds'), ?_, pre', ds', post', hl', hne', hdig', rfl⟩
    unfold extract_sample_code_from_response
    rw [hsucc, hds']
  · intro hns hnerr
    cases h1 : scanFor succLit s.data with
    | some ds =>
      obtain ⟨pre, post, hl, hne, hdig⟩ := scanFor_some h1
      exact absurd ⟨pre, ds, post, hl, hne, hdig, rfl⟩
        (hns (String.mk ("ERS".data ++ ds)))
    | none =>
      cases h2 : scanFor errLit s.data with
      | some ds =>
        obtain ⟨pre, post, hl, hne, hdig⟩ := scanFor_some h2
        exact absurd ⟨pre, ds, post, hl, hne, hdig, rfl⟩
          (hnerr (String.mk ("ERS".data ++ ds)))
      | none =>
        unfold extract_sample_code_from_response
        rw [h1, h2]

/-- Witness for C5 on a response containing both shapes: the returned
accession is the success-shaped one. -/
theorem claim_C5_witness :
    ∃ a, extract_sample_code_from_response
        "accession: \"ERS7\" <SAMPLE accession=\"ERS42\"" = some a ∧
      successShaped "accession: \"ERS7\" <SAMPLE accession=\"ERS42\"" a :=
  (claim_C5_extraction_precedence "accession: \"ERS7\" <SAMPLE accession=\"ERS42\"").1
    ⟨"ERS42", "accession: \"ERS7\" ".data, "42".data, [], by rfl, by decide, by rfl, by rfl⟩

/-- C10.  Extraction returns an accession only when the response contains
`ERS` followed by one or more digits inside the success shape
`<SAMPLE accession="…"` or the error shape `accession: "…"`; any response
without such an occurrence yields `none` (contrapositive). -/
theorem claim_C10_accession_shape (s a : String)
    (h : extract_sample_code_from_response s = some a) :
    successShaped s a ∨ errorShaped s a :=
  extract_some_shaped h

/-- Witness for C10 at a success-shaped response. -/
theorem claim_C10_witness :
    successShaped "<SAMPLE accession=\"ERS5\"" "ERS5" ∨
      errorShaped "<SAMPLE accession=\"ERS5\"" "ERS5" :=
  claim_C10_accession_shape "<SAMPLE accession=\"ERS5\"" "ERS5" (by rfl)

/-- C9.  At release time, a persisted receipt with no extractable accession
makes the run fail before any release document exists to transport; when an
accession is found, the release document targets exactly that accession. -/
theorem claim_C9_release_requires_accession (receipt : String) :
    (extract_sample_code_from_response receipt = none →
      release_main receipt = Except.error "No sample code found in submission response.")
  ∧ (∀ a, extract_sample_code_from_response receipt = some a →
      release_main receipt = Except.ok [ReleaseAction.modify, ReleaseAction.release a]) := by
  constructor
  · intro h
    unfold release_main
    rw [h]
  · intro a h
    unfold release_main
    rw [h]
    dsimp only
    rw [if_neg (extract_ne_empty h)]
    rfl

/-- Witness for C9: a receipt without an accession aborts, a receipt with
`ERS7` in the error shape releases `ERS7`. -/
theorem claim_C9_witness :
    release_main "nothing here" =
      Except.error "No sample code found in submission response."
  ∧ release_main "accession: \"ERS7\"" =
      Except.ok [ReleaseAction.modify, ReleaseAction.release "ERS7"] :=
  ⟨(claim_C9_release_requires_accession "nothing here").1 (by rfl),
   (claim_C9_release_requires_accession "accession: \"ERS7\"").2 "ERS7" (by rfl)⟩

theorem alookup_dictUpd_isSome {β : Type} (m : List (String × β)) (k : String) (v : β)
    (n : String) :
    (alookup (dictUpd m k v) n).isSome = true ↔
      n = k ∨ (alookup m n).isSome = true := by
  induction m with
  | nil =>
    by_cases h : k = n
    · subst h
      simp [dictUpd, alookup]
    · simp [dictUpd, alookup, h, Ne.symm h]
  | cons e rest ih =>
    obtain ⟨k', v'⟩ := e
    by_cases h : k' = k
    · subst h
      by_cases hn : k' = n
      · subst hn
        simp [dictUpd, alookup]
      · simp [dictUpd, alookup, hn, Ne.symm hn]
    · by_cases hn : k' = n
      · subst hn
        simp [dictUpd, alookup, h]
      · simp [dictUpd, alookup, h, hn, ih]
        

theorem mfu_fold_spec : ∀ (fields : List ChecklistField)
    (acc : List String × List (String × Option String) × List String),
    (fields.foldl mfu_step acc).1 =
        acc.1 ++ (fields.filter (fun f => f.mandatory_marker == "mandatory")).map
          ChecklistField.name
  ∧ (fields.foldl mfu_step acc).2.2 =
        acc.2.2 ++ (fields.filter (fun f => f.mandatory_marker == "recommended")).map
          ChecklistField.name
  ∧ ∀ k, (alookup (fields.foldl mfu_step acc).2.1 k).isSome = true ↔
        ((alookup acc.2.1 k).isSome = true ∨
          ∃ f ∈ fields, f.name = k ∧ f.units_decl.isSome = true) := by
  intro fields
  induction fields with
  | nil =>
    intro acc
    refine ⟨by simp, by simp, fun k => by simp⟩
  | cons fd rest ih =>
    intro acc
    simp only [List.foldl_cons]
    obtain ⟨ih1, ih2, ih3⟩ := ih (mfu_step acc fd)
    refine ⟨?_, ?_, ?_⟩
    · rw [ih1]
      have hstep : (mfu_step acc fd).1 =
          if fd.mandatory_marker = "mandatory" then acc.1 ++ [fd.name] else acc.1 := rfl
      by_cases h : fd.mandatory_marker = "mandatory"
      · rw [hstep, if_pos h, List.filter_cons, if_pos (by simp [h]), List.map_cons]
        simp
      · rw [hstep, if_neg h, List.filter_cons, if_neg (by simp [h])]
    · rw [ih2]
      have hstep : (mfu_step acc fd).2.2 =
          if fd.mandatory_marker = "recommended" then acc.2.2 ++ [fd.name] else acc.2.2 := rfl
      by_cases h : fd.mandatory_marker = "recommended"
      · rw [hstep, if_pos h, List.filter_cons, if_pos (by simp [h]), List.map_cons]
        simp
      · rw [hstep, if_neg h, List.filter_cons, if_neg (by simp [h])]
    · intro k
      rw [ih3 k]
      have hstep : (mfu_step acc fd).2.1 =
          match fd.units_decl with
          | some u => dictUpd acc.2.1 fd.name u
          | none => acc.2.1 := rfl
      rw [hstep]
      cases hu : fd.units_decl with
      | some u =>
        dsimp only
        rw [alookup_dictUpd_isSome]
        simp only [List.mem_cons, hu, Option.isSome_some, and_true]
        constructor
        · rintro (⟨hk | ha⟩ | ⟨f, hf, hfk, hfu⟩)
          · exact Or.inr ⟨fd, Or.inl rfl, hk.symm, by rw [hu]; rfl⟩
          · exact Or.inl ha
          · exact Or.inr ⟨f, Or.inr hf, hfk, hfu⟩
        · rintro (ha | ⟨f, hf | hf, hfk, hfu⟩)
          · exact Or.inl (Or.inr ha)
          · subst hf
            exact Or.inl (Or.inl hfk.symm)
          · exact Or.inr ⟨f, hf, hfk, hfu⟩
      | none =>
        dsimp only
        constructor
        · rintro (ha | ⟨f, hf, hfk, hfu⟩)
          · exact Or.inl ha
          · exact Or.inr ⟨f, List.mem_cons_of_mem _ hf, hfk, hfu⟩
        · rintro (ha | ⟨f, hf, hfk, hfu⟩)
          · exact Or.inl ha
          · rcases List.mem_cons.mp hf with hf | hf
            · subst hf
              rw [hu] at hfu
              simp at hfu
            · exact Or.inr ⟨f, hf, hfk, hfu⟩

/-- C8.  The checklist resolver classifies a field as mandatory exactly
when its MANDATORY marker equals `mandatory` and as recommended exactly
when it equals `recommended` (other markers are ignored), in field order;
and a field name has an entry in the units mapping iff some field with that
name carries a UNITS declaration. -/
theorem claim_C8_field_classification (fields : List ChecklistField) :
    (mandatory_fields_and_units fields).1 =
        (fields.filter (fun f => f.mandatory_marker == "mandatory")).map ChecklistField.name
  ∧ (mandatory_fields_and_units fields).2.2 =
        (fields.filter (fun f => f.mandatory_marker == "recommended")).map ChecklistField.name
  ∧ ∀ k, (alookup (mandatory_fields_and_units fields).2.1 k).isSome = true ↔
        ∃ f ∈ fields, f.name = k ∧ f.units_decl.isSome = true := by
  obtain ⟨h1, h2, h3⟩ := mfu_fold_spec fields ([], [], [])
  refine ⟨by simpa using h1, by simpa using h2, fun k => ?_⟩
  rw [mandatory_fields_and_units, h3 k]
  simp [alookup]

theorem process_one_ok (st : ProcState) (y : String × SampleXml) (t n : String)
    (h1 : st.common_taxon_id = some t) (h2 : st.common_scientific_name = some n)
    (hyt : y.2.taxon_id = t) (hyn : y.2.scientific_name = n) :
    process_one st y = Except.ok
      { sample_aliases := st.sample_aliases ++ [y.2.alias_name]
        all_attributes := st.all_attributes ++ [y.2.attributes]
        common_taxon_id := some t
        common_scientific_name := some n
        checklist_set := collect_checklist st.checklist_set y.2.attributes } := by
  unfold process_one check_common
  rw [h1, h2, hyt, hyn]
  simp

theorem process_from_cons (st : ProcState) (y : String × SampleXml)
    (rest : List (String × SampleXml)) (st' : ProcState)
    (h : process_one st y = Except.ok st') :
    process_from st (y :: rest) = process_from st' rest := by
  rw [process_from, h]

theorem process_from_agree : ∀ (rest : List (String × SampleXml)) (st : ProcState)
    (t n : String), st.common_taxon_id = some t → st.common_scientific_name = some n →
    (∀ y ∈ rest, y.2.taxon_id = t ∧ y.2.scientific_name = n) →
    ∃ st', process_from st rest = Except.ok st' ∧
      st'.common_taxon_id = some t ∧ st'.common_scientific_name = some n := by
  intro rest
  induction rest with
  | nil =>
    intro st t n h1 h2 _
    exact ⟨st, rfl, h1, h2⟩
  | cons y ys ih =>
    intro st t n h1 h2 hall
    have hy := hall y (List.mem_cons_self y ys)
    rw [process_from_cons st y ys _ (process_one_ok st y t n h1 h2 hy.1 hy.2)]
    exact ih _ t n rfl rfl (fun z hz => hall z (List.mem_cons_of_mem _ hz))

theorem process_from_mismatch : ∀ (pre : List (String × SampleXml)) (st : ProcState)
    (t n : String) (x : String × SampleXml) (post : List (String × SampleXml)),
    st.common_taxon_id = some t → st.common_scientific_name = some n →
    (∀ y ∈ pre, y.2.taxon_id = t ∧ y.2.scientific_name = n) →
    ¬ (x.2.taxon_id = t ∧ x.2.scientific_name = n) →
    process_from st (pre ++ x :: post) = Except.error (mismatch_msg t n x) := by
  intro pre
  induction pre with
  | nil =>
    intro st t n x post h1 h2 _ hx
    have hstep : process_one st x = Except.error (mismatch_msg t n x) := by
      unfold process_one check_common mismatch_msg
      rw [h1, h2]
      by_cases hta : x.2.taxon_id = t
      · have hsn : x.2.scientific_name ≠ n := fun h => hx ⟨hta, h⟩
        rw [hta]
        simp [Ne.symm hsn]
      · have hta' : ¬ (t = x.2.taxon_id) := fun h => hta h.symm
        simp [hta, hta']
    rw [List.nil_append, process_from, hstep]
  | cons y ys ih =>
    intro st t n x post h1 h2 hall hx
    have hy := hall y (List.mem_cons_self y ys)
    rw [List.cons_append,
      process_from_cons st y _ _ (process_one_ok st y t n h1 h2 hy.1 hy.2)]
    exact ih _ t n x post rfl rfl (fun z hz => hall z (List.mem_cons_of_mem _ hz)) hx

theorem process_one_first (s0 : String × SampleXml) :
    process_one ⟨[], [], none, none, []⟩ s0 = Except.ok
      { sample_aliases := [s0.2.alias_name]
        all_attributes := [s0.2.attributes]
        common_taxon_id := some s0.2.taxon_id
        common_scientific_name := some s0.2.scientific_name
        checklist_set := collect_checklist [] s0.2.attributes } := by
  unfold process_one check_common
  simp

/-- C3.  Taxonomy is validated against the first sample, in input order:
if any sample's taxon id or scientific name differs from the first
sample's, the submission pipeline aborts with the mismatch error naming the
first offending sample (so no record is composed and nothing reaches the
transport — the `Except.ok` value of `main_submit` is exactly the record
handed to the transport); when all samples agree, any record the pipeline
produces carries the first sample's taxon id and scientific name. -/
theorem claim_C3_taxonomy_mismatch_aborts :
    (∀ (s0 : String × SampleXml) (pre : List (String × SampleXml))
       (x : String × SampleXml) (post : List (String × SampleXml))
       (checklist alias_name center : String) (resolve_mandatory : String → List String),
       (∀ y ∈ pre, sample_agrees s0 y) → ¬ sample_agrees s0 x →
       main_submit (s0 :: pre ++ x :: post) checklist alias_name center resolve_mandatory =
         Except.error (mismatch_msg s0.2.taxon_id s0.2.scientific_name x))
  ∧ (∀ (s0 : String × SampleXml) (rest : List (String × SampleXml))
       (checklist alias_name center : String) (resolve_mandatory : String → List String)
       (r : SampleRecord),
       (∀ y ∈ rest, sample_agrees s0 y) →
       main_submit (s0 :: rest) checklist alias_name center resolve_mandatory =
         Except.ok r →
       r.taxon_id = some s0.2.taxon_id ∧ r.scientific_name = some s0.2.scientific_name) := by
  constructor
  · intro s0 pre x post ck al ce res hpre hx
    have hps : process_samples (s0 :: pre ++ x :: post) =
        Except.error (mismatch_msg s0.2.taxon_id s0.2.scientific_name x) := by
      unfold process_samples
      rw [List.cons_append, process_from_cons _ _ _ _ (process_one_first s0)]
      exact process_from_mismatch pre _ _ _ x post rfl rfl (fun y hy => hpre y hy) hx
    unfold main_submit
    rw [hps]
  · intro s0 rest ck al ce res r hall hok
    obtain ⟨st', hst', ht', hn'⟩ := process_from_agree rest
      { sample_aliases := [s0.2.alias_name]
        all_attributes := [s0.2.attributes]
        common_taxon_id := some s0.2.taxon_id
        common_scientific_name := some s0.2.scientific_name
        checklist_set := collect_checklist [] s0.2.attributes }
      s0.2.taxon_id s0.2.scientific_name rfl rfl (fun y hy => hall y hy)
    have hps : process_samples (s0 :: rest) = Except.ok st' := by
      unfold process_samples
      rw [process_from_cons _ _ _ _ (process_one_first s0)]
      exact hst'
    unfold main_submit at hok
    rw [hps] at hok
    dsimp only at hok
    cases hsel : select_checklist ck st'.checklist_set with
    | error e =>
      rw [hsel] at hok
      simp at hok
    | ok pr =>
      obtain ⟨fc, w⟩ := pr
      rw [hsel] at hok
      dsimp only at hok
      injection hok with hr
      rw [← hr]
      exact ⟨ht', hn'⟩

/-- Witness for C3: two fetched samples with differing taxon ids abort with
the mismatch error naming the second sample. -/
theorem claim_C3_witness :
    main_submit [("S1", ⟨"a1", "9606", "Homo sapiens", []⟩),
        ("S2", ⟨"a2", "10090", "Homo sapiens", []⟩)] "" "" "" (fun _ => []) =
      Except.error (mismatch_msg "9606" "Homo sapiens"
        ("S2", ⟨"a2", "10090", "Homo sapiens", []⟩))
  ∧ mismatch_msg "9606" "Homo sapiens" ("S2", ⟨"a2", "10090", "Homo sapiens", []⟩) =
      "Taxon ID mismatch for sample S2: 10090 vs 9606" :=
  ⟨claim_C3_taxonomy_mismatch_aborts.1 ("S1", ⟨"a1", "9606", "Homo sapiens", []⟩) []
      ("S2", ⟨"a2", "10090", "Homo sapiens", []⟩) [] "" "" "" (fun _ => [])
      (by simp) (fun h => absurd h.1 (by decide)),
   by rfl⟩
